import Mathlib

/-!
Verification development for a browser document-chat application.

The embedding covers:
* the text chunking step feeding the in-memory vector index,
* the vector store service (adding chunked documents, similarity search,
  clearing),
* the OpenAI service (per-file text extraction, batch upload, chat message
  dispatch, readiness checks, clearing files),
* the chat interface message-list handler.

External effects (PDF/DOCX/PPTX parsers, the FileReader, the embeddings
API and the completion API) are modelled as explicit oracle arguments:
an `Except Unit String` outcome per file, a `String -> Embedding` query
embedder, a similarity scoring function, and a completion oracle.
-/

namespace DocChat

/-! ## Chunking

Modelled from the spec: the repository delegates chunking to a third-party
`RecursiveCharacterTextSplitter` configured with `chunkSize 1000` and
`chunkOverlap 200`; the library source is not part of this repository.
The spec describes the step as splitting extracted text into fixed-size
overlapping windows, so the model below slides a window of `chunkSize`
characters advancing by `chunkSize - chunkOverlap` characters.

`slideChunksFuel` is the fuel-driven worker; `slideChunks` instantiates the
fuel with the text length, which is always sufficient. -/

def slideChunksFuel (chunkSize stepPred : Nat) : Nat → List Char → List (List Char)
  | _, [] => []
  | 0, a :: as => [a :: as]
  | fuel + 1, a :: as =>
      if (a :: as).length ≤ chunkSize then [a :: as]
      else (a :: as).take chunkSize ::
        slideChunksFuel chunkSize stepPred fuel ((a :: as).drop (stepPred + 1))

/-- Modelled from the spec: sliding-window chunking with window `chunkSize`
and advance `stepPred + 1` (so overlap `chunkSize - stepPred - 1`). -/
def slideChunks (chunkSize stepPred : Nat) (s : List Char) : List (List Char) :=
  slideChunksFuel chunkSize stepPred s.length s

/-- Modelled from the spec: the configured splitter with chunk size 1000 and
overlap 200 (advance 800 = stepPred 799 + 1). -/
def splitText (text : String) : List String :=
  (slideChunks 1000 799 text.data).map (fun l => String.mk l)

/-! ## Vector store data model (vectorStore.ts) -/

structure ChunkMetadata where
  fileName : String
  chunkIndex : Nat
  totalChunks : Nat
deriving DecidableEq

structure Document where
  pageContent : String
  metadata : ChunkMetadata
deriving DecidableEq

structure DocumentChunk where
  content : String
  metadata : ChunkMetadata
deriving DecidableEq

/-- Embeddings are opaque numeric vectors; the embedding API is modelled as a
function argument producing them. -/
abbrev Embedding := List Int

structure MemoryVector where
  embedding : Embedding
  doc : Document

structure MemoryVectorStore where
  memoryVectors : List MemoryVector

/-- State of `VectorStoreService`: the nullable in-memory store and the
nullable embeddings client (a query-embedding function once initialized). -/
structure VectorStoreState where
  vectorStore : Option MemoryVectorStore
  embeddings : Option (String → Embedding)

/-- Metadata attachment of `addDocuments`: `chunks.map((chunk, index) => ...)`
with `fileName`, `chunkIndex`, `totalChunks`. -/
def chunkDocsAux (name : String) (total : Nat) : Nat → List String → List Document
  | _, [] => []
  | i, c :: cs => ⟨c, ⟨name, i, total⟩⟩ :: chunkDocsAux name total (i + 1) cs

/-- Chunks of a single uploaded document, with metadata, as built inside
`VectorStoreService.addDocuments`. -/
def chunkDocs (name content : String) : List Document :=
  chunkDocsAux name (splitText content).length 0 (splitText content)

/-- All chunk documents produced for a batch, in order. -/
def addedChunkDocs (docs : List (String × String)) : List Document :=
  docs.flatMap fun d => chunkDocs d.1 d.2

namespace VectorStoreService

def isInitialized (vst : VectorStoreState) : Bool :=
  vst.vectorStore.isSome && vst.embeddings.isSome

/-- langchain `MemoryVectorStore.similaritySearchVectorWithScore`: score every
stored vector against the query, sort by descending similarity, keep the
first `k`. The scoring function is an oracle argument. -/
def similaritySearchVectorWithScore (sim : Embedding → Embedding → Int)
    (store : MemoryVectorStore) (q : Embedding) (k : Nat) : List (Document × Int) :=
  ((store.memoryVectors.map fun mv => (mv.doc, sim q mv.embedding)).insertionSort
    fun a b => b.2 ≤ a.2).take k

/-- `VectorStoreService.searchSimilar`: throws when the store is missing,
embeds the query, delegates to the store, and re-packages each hit as a
`DocumentChunk` copying the three metadata fields. -/
def searchSimilar (sim : Embedding → Embedding → Int) (vst : VectorStoreState)
    (query : String) (k : Nat) : Except String (List DocumentChunk) :=
  match vst.vectorStore with
  | none => .error "Vector store not initialized"
  | some store =>
    match vst.embeddings with
    | none => .error "Vector store not initialized"
    | some emb =>
      .ok ((similaritySearchVectorWithScore sim store (emb query) k).map
        fun r => ⟨r.1.pageContent, ⟨r.1.metadata.fileName, r.1.metadata.chunkIndex, r.1.metadata.totalChunks⟩⟩)

/-- `VectorStoreService.addDocuments`: throws when uninitialized, splits every
document into chunks, attaches metadata, embeds each chunk content and appends
the result to the store. -/
def addDocuments (vst : VectorStoreState) (docs : List (String × String)) :
    Except String VectorStoreState :=
  match vst.vectorStore, vst.embeddings with
  | some store, some emb =>
      .ok ⟨some ⟨store.memoryVectors ++ (addedChunkDocs docs).map fun d => ⟨emb d.pageContent, d⟩⟩,
           some emb⟩
  | _, _ => .error "Vector store not initialized"

/-- `VectorStoreService.clear`: null the store, then, when an embeddings
client exists, replace it with a fresh empty store. -/
def clear (vst : VectorStoreState) : VectorStoreState :=
  match vst.embeddings with
  | some emb => ⟨some ⟨[]⟩, some emb⟩
  | none => ⟨none, none⟩

end VectorStoreService

/-! ## OpenAI service (openaiService.ts)

Per-file extraction dispatches on the MIME type; the external parsers and
the FileReader are modelled by an `Except Unit String` oracle carried on the
file: `.ok t` is the text the external call produced, `.error ()` is a
thrown error / failed read. -/

inductive MimeType where
  | pdf
  | docx
  | pptx
  | plainText
  | other
deriving DecidableEq

structure FileModel where
  name : String
  mime : MimeType
  pyName : Bool
  extract : Except Unit String

/-- `extractPdfText`: joined page text, with a fallback string when the text
is empty and a placeholder when the parser throws. -/
def extractPdfText (name : String) (res : Except Unit String) : String :=
  match res with
  | .ok t => if t = "" then "No text content found in PDF: " ++ name else t
  | .error _ => "Error extracting content from PDF: " ++ name

/-- `extractDocxText`: returns `result.value` from mammoth unchanged; only a
thrown error is replaced by a placeholder. -/
def extractDocxText (name : String) (res : Except Unit String) : String :=
  match res with
  | .ok t => t
  | .error _ => "Error extracting content from DOCX: " ++ name

/-- `extractPptxText`: joined slide text, with a fallback string when empty
and a placeholder when the parser throws. -/
def extractPptxText (name : String) (res : Except Unit String) : String :=
  match res with
  | .ok t => if t = "" then "Unable to extract readable text from: " ++ name else t
  | .error _ => "Error extracting content from PPTX: " ++ name

/-- The FileReader path used for `text/plain` and `.py` files: a failed read
rejects the per-file promise instead of degrading to a placeholder. -/
def readFileAsText (res : Except Unit String) : Except String String :=
  match res with
  | .ok t => .ok t
  | .error _ => .error "Failed to read file"

/-- Whether a file takes the FileReader path of `uploadFiles`
(`type === text/plain` or a name ending in `.py`, checked after the
PDF/DOCX/PPTX branches). -/
def usesReader (f : FileModel) : Bool :=
  match f.mime with
  | .plainText => true
  | .other => f.pyName
  | _ => false

/-- The per-file extraction step of `uploadFiles`: dispatch on the MIME type;
unsupported types get a placeholder content string. -/
def extractFileContent (f : FileModel) : Except String String :=
  match f.mime with
  | .pdf => .ok (extractPdfText f.name f.extract)
  | .docx => .ok (extractDocxText f.name f.extract)
  | .pptx => .ok (extractPptxText f.name f.extract)
  | .plainText => readFileAsText f.extract
  | .other =>
      if f.pyName then readFileAsText f.extract
      else .ok ("Unsupported file type: " ++ f.name)

/-- The extraction phase of `uploadFiles`: one promise per file joined by
`Promise.all`; a single rejection rejects the whole batch. -/
def uploadFilesExtract : List FileModel → Except String (List (String × String))
  | [] => .ok []
  | f :: fs =>
    match extractFileContent f with
    | .error e => .error e
    | .ok c =>
      match uploadFilesExtract fs with
      | .error e => .error e
      | .ok rest => .ok ((f.name, c) :: rest)

/-- State of `OpenAIService`: nullable client (its configuration is
irrelevant, so `Option Unit`), accumulated file contents, system
instructions, and the owned vector store state. -/
structure ServiceState where
  client : Option Unit
  fileContents : List (String × String)
  systemInstructions : String
  vectorStore : VectorStoreState

inductive Role where
  | system
  | user
  | assistant
deriving DecidableEq

/-- Chat completion request payload; `temperatureTenths = 7` records the
constant temperature 0.7 in tenths. -/
structure ChatRequest where
  model : String
  messages : List (Role × String)
  maxTokens : Nat
  temperatureTenths : Nat
deriving DecidableEq

/-- Errors `sendMessage` can throw: the two explicit readiness errors, the
(unreachable) rethrown vector-store error, and any rethrown API error. -/
inductive SendError where
  | notInitialized
  | noFiles
  | vectorStoreFault
  | apiError
deriving DecidableEq

namespace OpenAIService

def modelName : String := "gpt-4.1-2025-04-14"

def fallbackResponse : String := "I apologize, but I was unable to generate a response."

def ctxSep : String := "\n\n---\n\n"

def mkSystemPrompt (instr ctx : String) : String :=
  instr ++ "\n\nHere are the relevant document sections for answering the user\x27s question:\n\n"
    ++ ctx
    ++ "\n\nPlease answer the question based on this content. If the information is not available in the provided context, say so clearly."

def chunkHeader (c : DocumentChunk) : String :=
  "=== " ++ c.metadata.fileName ++ " (chunk " ++ toString (c.metadata.chunkIndex + 1)
    ++ "/" ++ toString c.metadata.totalChunks ++ ") ===\n" ++ c.content

def fileHeader (f : String × String) : String :=
  "=== " ++ f.1 ++ " ===\n" ++ f.2

/-- Context assembly inside `sendMessage`: semantic search over the top 6
chunks when the vector store is initialized, otherwise the full documents. -/
def buildContext (st : ServiceState) (sim : Embedding → Embedding → Int)
    (msg : String) : Except SendError String :=
  if VectorStoreService.isInitialized st.vectorStore then
    match VectorStoreService.searchSimilar sim st.vectorStore msg 6 with
    | .ok chunks => .ok (String.intercalate ctxSep (chunks.map chunkHeader))
    | .error _ => .error SendError.vectorStoreFault
  else
    .ok (String.intercalate ctxSep (st.fileContents.map fileHeader))

/-- The single completion request `sendMessage` issues: one system message
(instructions plus context) and one user message, `max_tokens 800`,
`temperature 0.7`. -/
def mkRequest (instr ctx msg : String) : ChatRequest :=
  ⟨modelName, [(Role.system, mkSystemPrompt instr ctx), (Role.user, msg)], 800, 7⟩

/-- `OpenAIService.sendMessage`. The completion API is the oracle argument
`complete`; `.ok none` models a response with no message content, which the
code replaces by `fallbackResponse`. The issued request is returned alongside
the response text so that theorems can speak about the one request made at
the unique `completions.create` call site. -/
def sendMessage (st : ServiceState) (sim : Embedding → Embedding → Int)
    (complete : ChatRequest → Except Unit (Option String)) (msg : String) :
    Except SendError (ChatRequest × String) :=
  match st.client with
  | none => .error SendError.notInitialized
  | some _ =>
    if st.fileContents.isEmpty then .error SendError.noFiles
    else
      match buildContext st sim msg with
      | .error e => .error e
      | .ok ctx =>
        match complete (mkRequest st.systemInstructions ctx msg) with
        | .ok r => .ok (mkRequest st.systemInstructions ctx msg, r.getD fallbackResponse)
        | .error _ => .error SendError.apiError

def isReady (st : ServiceState) : Bool :=
  st.client.isSome && !st.fileContents.isEmpty

def hasFiles (st : ServiceState) : Bool :=
  !st.fileContents.isEmpty

/-- `OpenAIService.clearFiles`: drop the stored contents and clear the vector
store. -/
def clearFiles (st : ServiceState) : ServiceState :=
  ⟨st.client, [], st.systemInstructions, VectorStoreService.clear st.vectorStore⟩

end OpenAIService

/-! ## Chat interface (ChatInterface.tsx) -/

structure ChatMessage where
  id : String
  role : Role
  content : String
  timestamp : Nat
deriving DecidableEq

structure ChatState where
  messages : List ChatMessage
  input : String
  isLoading : Bool
deriving DecidableEq

def errorFallback : String :=
  "I apologize, but I encountered an error while processing your message. Please try again."

/-- JavaScript `String.prototype.trim`: strip whitespace from both ends. -/
def trimChars (l : List Char) : List Char :=
  ((l.dropWhile Char.isWhitespace).reverse.dropWhile Char.isWhitespace).reverse

def trimStr (s : String) : String := ⟨trimChars s.data⟩

/-- `ChatInterface.handleSend`. `respond` is the `onSendMessage` oracle;
`uid1 t1` and `uid2 t2` stand for the generated ids and timestamps of the two
messages a turn can append. The early return fires on blank input or while
loading; otherwise the trimmed user message is appended, the input cleared,
and either the response or the fallback text is appended as an assistant
message. -/
def handleSend (st : ChatState) (respond : String → Except Unit String)
    (uid1 uid2 : String) (t1 t2 : Nat) : ChatState :=
  if trimStr st.input = "" ∨ st.isLoading then st
  else
    let userMsg : ChatMessage := ⟨uid1, Role.user, trimStr st.input, t1⟩
    match respond (trimStr st.input) with
    | .ok r =>
        ⟨st.messages ++ [userMsg, ⟨uid2, Role.assistant, r, t2⟩], "", st.isLoading⟩
    | .error _ =>
        ⟨st.messages ++ [userMsg, ⟨uid2, Role.assistant, errorFallback, t2⟩], "", st.isLoading⟩

/-! ## Concrete fixtures used by witnesses -/

def zeroEmb : String → Embedding := fun _ => []

def zeroSim : Embedding → Embedding → Int := fun _ _ => 0

def docA : Document := ⟨"alpha", ⟨"a.txt", 0, 2⟩⟩

def docB : Document := ⟨"beta", ⟨"a.txt", 1, 2⟩⟩

def docC : Document := ⟨"gamma", ⟨"b.txt", 0, 1⟩⟩

def sampleStore : MemoryVectorStore := ⟨[⟨[], docA⟩, ⟨[], docB⟩, ⟨[], docC⟩]⟩

def sampleVectorState : VectorStoreState := ⟨some sampleStore, some zeroEmb⟩

def sampleService : ServiceState := ⟨some (), [("a.txt", "hello")], "inst", ⟨none, none⟩⟩

def sampleCtx : String := "=== a.txt ===\nhello"

def okComplete : ChatRequest → Except Unit (Option String) := fun _ => .ok (some "hi")

def vstEmpty : VectorStoreState := ⟨some ⟨[]⟩, some zeroEmb⟩

def docXY : Document := ⟨"xy", ⟨"a", 0, 1⟩⟩

def vstAfter : VectorStoreState := ⟨some ⟨[⟨[], docXY⟩]⟩, some zeroEmb⟩

/-- The invariant C9 asserts of `addDocuments` followed by `searchSimilar`. -/
def MetadataInvariant (vst : VectorStoreState) (docs : List (String × String))
    (vst' : VectorStoreState) : Prop :=
  (∀ doc ∈ addedChunkDocs docs, doc.metadata.chunkIndex < doc.metadata.totalChunks) ∧
  (∀ name content, ∀ doc ∈ chunkDocs name content,
      doc.metadata.fileName = name ∧ doc.metadata.totalChunks = (splitText content).length) ∧
  (∃ store emb, vst.vectorStore = some store ∧ vst.embeddings = some emb ∧
      vst'.vectorStore =
        some ⟨store.memoryVectors ++ (addedChunkDocs docs).map fun d => ⟨emb d.pageContent, d⟩⟩ ∧
      vst'.embeddings = some emb) ∧
  (∀ sim q k res store, vst'.vectorStore = some store →
      VectorStoreService.searchSimilar sim vst' q k = .ok res →
      ∀ c ∈ res, ∃ mv ∈ store.memoryVectors,
        c.content = mv.doc.pageContent ∧ c.metadata = mv.doc.metadata)

/-! ## Helper lemmas on the chunking model -/

theorem slideChunks_nil (cs sp : Nat) : slideChunks cs sp [] = [] := rfl

theorem slideChunksFuel_congr (cs sp : Nat) :
    ∀ f1 f2 (s : List Char), s.length ≤ f1 → s.length ≤ f2 →
      slideChunksFuel cs sp f1 s = slideChunksFuel cs sp f2 s := by
  intro f1
  induction f1 with
  | zero =>
      intro f2 s h1 _
      have hnil : s = [] := List.eq_nil_of_length_eq_zero (Nat.le_zero.mp h1)
      subst hnil
      cases f2 <;> rfl
  | succ f1 ih =>
      intro f2 s h1 h2
      cases s with
      | nil => cases f2 <;> rfl
      | cons a as =>
          cases f2 with
          | zero => simp at h2
          | succ g =>
              simp only [List.length_cons] at h1 h2
              simp only [slideChunksFuel]
              by_cases hle : as.length + 1 ≤ cs
              · simp only [List.length_cons, hle, if_true]
              · simp only [List.length_cons, hle, if_false]
                congr 1
                refine ih g ((a :: as).drop (sp + 1)) ?_ ?_ <;>
                  simp only [List.length_drop, List.length_cons] <;> omega

theorem slideChunks_of_le (cs sp : Nat) (s : List Char) (h1 : s ≠ []) (h2 : s.length ≤ cs) :
    slideChunks cs sp s = [s] := by
  cases s with
  | nil => exact absurd rfl h1
  | cons a as =>
      simp only [List.length_cons] at h2
      simp only [slideChunks, List.length_cons]
      simp [slideChunksFuel, h2]

theorem slideChunks_of_gt (cs sp : Nat) (s : List Char) (h : cs < s.length) :
    slideChunks cs sp s = s.take cs :: slideChunks cs sp (s.drop (sp + 1)) := by
  cases s with
  | nil => simp at h
  | cons a as =>
      have hnot : ¬ (a :: as).length ≤ cs := Nat.not_le.mpr h
      simp only [slideChunks, List.length_cons]
      rw [slideChunksFuel]
      simp only [hnot, if_false]
      congr 1
      refine slideChunksFuel_congr cs sp as.length ((a :: as).drop (sp + 1)).length
        ((a :: as).drop (sp + 1)) ?_ (Nat.le_refl _)
      simp only [List.length_drop, List.length_cons]
      omega

theorem slideChunks_len_le_aux (cs sp : Nat) :
    ∀ n (s : List Char), s.length ≤ n → ∀ c ∈ slideChunks cs sp s, c.length ≤ cs := by
  intro n
  induction n with
  | zero =>
      intro s hs c hc
      have hnil : s = [] := List.eq_nil_of_length_eq_zero (Nat.le_zero.mp hs)
      subst hnil
      simp [slideChunks_nil] at hc
  | succ n ih =>
      intro s hs c hc
      rcases eq_or_ne s [] with rfl | hne
      · simp [slideChunks_nil] at hc
      · by_cases hle : s.length ≤ cs
        · rw [slideChunks_of_le cs sp s hne hle] at hc
          simp only [List.mem_singleton] at hc
          exact hc ▸ hle
        · rw [slideChunks_of_gt cs sp s (Nat.not_le.mp hle)] at hc
          rcases List.mem_cons.mp hc with rfl | hc'
          · exact List.length_take_le cs s
          · refine ih (s.drop (sp + 1)) ?_ c hc'
            simp only [List.length_drop]
            omega

theorem slideChunks_len_le (cs sp : Nat) (s : List Char) :
    ∀ c ∈ slideChunks cs sp s, c.length ≤ cs :=
  slideChunks_len_le_aux cs sp s.length s (Nat.le_refl _)

theorem slideChunks_head_take (s : List Char) (h : s ≠ []) :
    ((slideChunks 1000 799 s).getD 0 []).take 200 = s.take 200 := by
  by_cases hle : s.length ≤ 1000
  · rw [slideChunks_of_le 1000 799 s h hle, List.getD_cons_zero]
  · rw [slideChunks_of_gt 1000 799 s (Nat.not_le.mp hle), List.getD_cons_zero, List.take_take]
    norm_num

theorem slideChunks_consec_aux :
    ∀ n (s : List Char), s.length ≤ n → ∀ i, i + 1 < (slideChunks 1000 799 s).length →
      ((slideChunks 1000 799 s).getD i []).length = 1000 ∧
      ((slideChunks 1000 799 s).getD i []).drop 800 =
        ((slideChunks 1000 799 s).getD (i + 1) []).take 200 := by
  intro n
  induction n with
  | zero =>
      intro s hs i hi
      have hnil : s = [] := List.eq_nil_of_length_eq_zero (Nat.le_zero.mp hs)
      subst hnil
      simp [slideChunks_nil] at hi
  | succ n ih =>
      intro s hs i hi
      rcases eq_or_ne s [] with rfl | hne
      · simp [slideChunks_nil] at hi
      · by_cases hle : s.length ≤ 1000
        · rw [slideChunks_of_le 1000 799 s hne hle] at hi
          simp at hi
        · have hgt := Nat.not_le.mp hle
          rw [slideChunks_of_gt 1000 799 s hgt] at hi ⊢
          have h800 : (799 : Nat) + 1 = 800 := rfl
          rw [h800] at hi ⊢
          cases i with
          | zero =>
              constructor
              · rw [List.getD_cons_zero, List.length_take_of_le (by omega)]
              · rw [List.getD_cons_zero, List.getD_cons_succ]
                have hne' : s.drop 800 ≠ [] := by
                  intro hE
                  have := congrArg List.length hE
                  simp only [List.length_drop, List.length_nil] at this
                  omega
                rw [slideChunks_head_take (s.drop 800) hne', List.drop_take]
          | succ j =>
              rw [List.getD_cons_succ, List.getD_cons_succ]
              have hi' : j + 1 < (slideChunks 1000 799 (s.drop 800)).length := by
                simpa using hi
              have hlen : (s.drop 800).length ≤ n := by
                simp only [List.length_drop]
                omega
              exact ih (s.drop 800) hlen j hi'

/-! ## Claim C7 -/

/-- Claim C7 (amended): with the configured chunk size 1000 and overlap 200,
every chunk of the splitting step has at most 1000 characters; every chunk
followed by another chunk has exactly 1000 characters and its last 200
characters are the first 200 characters of the next chunk (an overlap of
200). The original claim that every chunk has exactly the fixed size fails
for documents shorter than the window. -/
theorem c7_chunking_overlap (s : List Char) :
    (∀ c ∈ slideChunks 1000 799 s, c.length ≤ 1000) ∧
    (∀ i, i + 1 < (slideChunks 1000 799 s).length →
      ((slideChunks 1000 799 s).getD i []).length = 1000 ∧
      ((slideChunks 1000 799 s).getD i []).drop 800 =
        ((slideChunks 1000 799 s).getD (i + 1) []).take 200) :=
  ⟨slideChunks_len_le 1000 799 s,
   fun i hi => slideChunks_consec_aux s.length s (Nat.le_refl _) i hi⟩

/-- Claim C7 counterexample: the two-character document splits into a single
chunk of 2 characters, not of the configured fixed size 1000. -/
theorem c7_counterexample : splitText "ab" = ["ab"] ∧ ("ab" : String).length = 2 := by
  exact ⟨rfl, rfl⟩

set_option maxRecDepth 20000 in
theorem c7_witness :
    ((slideChunks 1000 799 (List.replicate 1800 'a')).getD 0 []).length = 1000 ∧
    ((slideChunks 1000 799 (List.replicate 1800 'a')).getD 0 []).drop 800 =
      ((slideChunks 1000 799 (List.replicate 1800 'a')).getD 1 []).take 200 :=
  (c7_chunking_overlap (List.replicate 1800 'a')).2 0 (by decide)

/-! ## Claim C1 -/

theorem append_ne_empty (s t : String) (hs : s ≠ "") : s ++ t ≠ "" := by
  intro h
  apply hs
  have hd : s.data ++ t.data = [] := by
    simpa using congrArg String.data h
  rcases List.append_eq_nil.mp hd with ⟨h1, _⟩
  cases s with
  | mk l =>
      simp only [String.data] at h1
      subst h1
      rfl

theorem extractPdfText_ne_empty (name : String) (ext : Except Unit String) :
    extractPdfText name ext ≠ "" := by
  cases ext with
  | ok t =>
      simp only [extractPdfText]
      by_cases ht : t = ""
      · simp only [ht, if_pos]
        exact append_ne_empty _ _ (by decide)
      · simp only [ht, if_neg]
        exact ht
  | error e => exact append_ne_empty _ _ (by decide)

theorem extractPptxText_ne_empty (name : String) (ext : Except Unit String) :
    extractPptxText name ext ≠ "" := by
  cases ext with
  | ok t =>
      simp only [extractPptxText]
      by_cases ht : t = ""
      · simp only [ht, if_pos]
        exact append_ne_empty _ _ (by decide)
      · simp only [ht, if_neg]
        exact ht
  | error e => exact append_ne_empty _ _ (by decide)

/-- Claim C1 (amended): extraction of PDF and PPTX files always yields a
non-empty string (empty parser output and parser errors are replaced by
non-empty placeholders); extraction of DOCX, plain-text and `.py` files
returns the external parser or reader output unchanged, so it is non-empty
only when that output is. The original claim fails because DOCX extraction
forwards an empty `result.value` and a plain-text read can yield the empty
string. -/
theorem c1_extraction_nonempty (f : FileModel) (c : String)
    (h : extractFileContent f = Except.ok c) :
    ((f.mime = MimeType.pdf ∨ f.mime = MimeType.pptx) → c ≠ "") ∧
    ((f.mime = MimeType.docx ∨ f.mime = MimeType.plainText ∨
        (f.mime = MimeType.other ∧ f.pyName = true)) →
      (∀ t, f.extract = Except.ok t → t ≠ "") → c ≠ "") := by
  obtain ⟨name, mime, py, ext⟩ := f
  cases mime with
  | pdf =>
      refine ⟨fun _ => ?_, fun hm _ => ?_⟩
      · simp only [extractFileContent, Except.ok.injEq] at h
        exact h ▸ extractPdfText_ne_empty name ext
      · simp at hm
  | pptx =>
      refine ⟨fun _ => ?_, fun hm _ => ?_⟩
      · simp only [extractFileContent, Except.ok.injEq] at h
        exact h ▸ extractPptxText_ne_empty name ext
      · simp at hm
  | docx =>
      refine ⟨fun hm => ?_, fun _ hne => ?_⟩
      · simp at hm
      · simp only [extractFileContent, Except.ok.injEq] at h
        cases ext with
        | ok t =>
            have : c = t := by simpa [extractDocxText] using h.symm
            exact this ▸ hne t rfl
        | error e =>
            have : c = extractDocxText name (Except.error e) := h.symm
            exact this ▸ append_ne_empty _ _ (by decide)
  | plainText =>
      refine ⟨fun hm => ?_, fun _ hne => ?_⟩
      · simp at hm
      · simp only [extractFileContent, readFileAsText] at h
        cases ext with
        | ok t =>
            have : c = t := by simpa using h.symm
            exact this ▸ hne t rfl
        | error e => simp at h
  | other =>
      refine ⟨fun hm => ?_, fun hm hne => ?_⟩
      · simp at hm
      · have hpy : py = true := by
          rcases hm with h1 | h1 | ⟨_, h1⟩ <;> first | exact h1 | simp at h1
        subst hpy
        simp only [extractFileContent, readFileAsText, if_pos] at h
        cases ext with
        | ok t =>
            have : c = t := by simpa using h.symm
            exact this ▸ hne t rfl
        | error e => simp at h

/-- Claim C1 counterexample: a DOCX file for which the external parser
returns the empty string makes the extraction step of `uploadFiles` produce
the empty string, although DOCX is a supported type. -/
theorem c1_counterexample :
    uploadFilesExtract [⟨"a.docx", MimeType.docx, false, Except.ok ""⟩] =
      Except.ok [("a.docx", "")] := rfl

theorem c1_witness :
    extractFileContent ⟨"r.pdf", MimeType.pdf, false, Except.ok "text"⟩ = Except.ok "text" ∧
    ("text" : String) ≠ "" :=
  ⟨rfl, (c1_extraction_nonempty ⟨"r.pdf", MimeType.pdf, false, Except.ok "text"⟩ "text" rfl).1
    (Or.inl rfl)⟩

/-! ## Claim C3 -/

theorem extractFileContent_ok (f : FileModel)
    (h : usesReader f = true → f.extract ≠ Except.error ()) :
    ∃ c, extractFileContent f = Except.ok c := by
  obtain ⟨name, mime, py, ext⟩ := f
  cases mime with
  | pdf => exact ⟨_, rfl⟩
  | docx => exact ⟨_, rfl⟩
  | pptx => exact ⟨_, rfl⟩
  | plainText =>
      cases ext with
      | ok t => exact ⟨t, rfl⟩
      | error e => exact absurd rfl (h rfl)
  | other =>
      cases hpy : py with
      | false =>
          subst hpy
          exact ⟨_, rfl⟩
      | true =>
          subst hpy
          cases ext with
          | ok t => exact ⟨t, rfl⟩
          | error e => exact absurd rfl (h rfl)

/-- Claim C3 (amended): extraction failures of the PDF, DOCX and PPTX parsers
degrade to placeholder content strings, and a batch in which no
FileReader-path file (plain text or `.py`) fails its read completes with one
content entry per file. The original claim fails because a failed
FileReader read rejects its file promise and `Promise.all` then rejects the
whole batch. -/
theorem c3_batch_degradation (files : List FileModel)
    (h : ∀ f ∈ files, usesReader f = true → f.extract ≠ Except.error ()) :
    (∃ out, uploadFilesExtract files = Except.ok out ∧ out.length = files.length) ∧
    (∀ g : FileModel, g.extract = Except.error () →
      (g.mime = MimeType.pdf →
        extractFileContent g = Except.ok ("Error extracting content from PDF: " ++ g.name)) ∧
      (g.mime = MimeType.docx →
        extractFileContent g = Except.ok ("Error extracting content from DOCX: " ++ g.name)) ∧
      (g.mime = MimeType.pptx →
        extractFileContent g = Except.ok ("Error extracting content from PPTX: " ++ g.name))) := by
  constructor
  · induction files with
    | nil => exact ⟨[], rfl, rfl⟩
    | cons f fs ih =>
        obtain ⟨c, hc⟩ := extractFileContent_ok f (h f (List.mem_cons_self f fs))
        obtain ⟨out, hout, hlen⟩ := ih fun g hg => h g (List.mem_cons_of_mem f hg)
        refine ⟨(f.name, c) :: out, ?_, by simp [hlen]⟩
        simp only [uploadFilesExtract, hc, hout]
  · intro g hg
    obtain ⟨name, mime, py, ext⟩ := g
    simp only at hg
    subst hg
    refine ⟨fun hm => ?_, fun hm => ?_, fun hm => ?_⟩ <;>
      (subst hm; rfl)

/-- Claim C3 counterexample: a single plain-text file whose read fails makes
`uploadFiles` reject the whole batch instead of storing a placeholder. -/
theorem c3_counterexample :
    uploadFilesExtract [⟨"notes.txt", MimeType.plainText, false, Except.error ()⟩] =
      Except.error "Failed to read file" := rfl

theorem c3_witness :
    ∃ out,
      uploadFilesExtract [⟨"doc.pdf", MimeType.pdf, false, Except.error ()⟩] = Except.ok out ∧
      out.length = 1 :=
  (c3_batch_degradation [⟨"doc.pdf", MimeType.pdf, false, Except.error ()⟩]
    (by
      intro f hf hr
      rw [List.mem_singleton] at hf
      subst hf
      simp [usesReader] at hr)).1

/-! ## Claim C2 -/

theorem searchSimilar_len_le (sim : Embedding → Embedding → Int) (vst : VectorStoreState)
    (q : String) (k : Nat) (res : List DocumentChunk)
    (h : VectorStoreService.searchSimilar sim vst q k = Except.ok res) : res.length ≤ k := by
  unfold VectorStoreService.searchSimilar at h
  cases hs : vst.vectorStore with
  | none => rw [hs] at h; simp at h
  | some store =>
      rw [hs] at h
      cases he : vst.embeddings with
      | none => rw [he] at h; simp at h
      | some emb =>
          rw [he] at h
          simp only [Except.ok.injEq] at h
          subst h
          rw [List.length_map]
          exact List.length_take_le k _

theorem searchSimilar_ok_of_initialized (sim : Embedding → Embedding → Int)
    (vst : VectorStoreState) (q : String) (k : Nat)
    (h : VectorStoreService.isInitialized vst = true) :
    ∃ chunks, VectorStoreService.searchSimilar sim vst q k = Except.ok chunks := by
  unfold VectorStoreService.isInitialized at h
  rw [Bool.and_eq_true] at h
  obtain ⟨store, hs⟩ := Option.isSome_iff_exists.mp h.1
  obtain ⟨emb, he⟩ := Option.isSome_iff_exists.mp h.2
  refine ⟨(VectorStoreService.similaritySearchVectorWithScore sim store (emb q) k).map
    (fun r => ⟨r.1.pageContent,
      ⟨r.1.metadata.fileName, r.1.metadata.chunkIndex, r.1.metadata.totalChunks⟩⟩), ?_⟩
  unfold VectorStoreService.searchSimilar
  rw [hs, he]

/-- Claim C2: for every query and bound `k`, `searchSimilar` returns at most
`k` chunks; and on the chat path, which queries with `k = 6`, the context is
assembled from those at most 6 chunks. -/
theorem c2_retrieval_bounded :
    (∀ sim vst q k res, VectorStoreService.searchSimilar sim vst q k = Except.ok res →
        res.length ≤ k) ∧
    (∀ st sim msg, VectorStoreService.isInitialized st.vectorStore = true →
        ∃ chunks,
          VectorStoreService.searchSimilar sim st.vectorStore msg 6 = Except.ok chunks ∧
          chunks.length ≤ 6 ∧
          OpenAIService.buildContext st sim msg =
            Except.ok (String.intercalate OpenAIService.ctxSep
              (chunks.map OpenAIService.chunkHeader))) := by
  constructor
  · exact fun sim vst q k res h => searchSimilar_len_le sim vst q k res h
  · intro st sim msg hinit
    obtain ⟨chunks, hc⟩ := searchSimilar_ok_of_initialized sim st.vectorStore msg 6 hinit
    refine ⟨chunks, hc, searchSimilar_len_le sim st.vectorStore msg 6 chunks hc, ?_⟩
    simp only [OpenAIService.buildContext, hinit, if_true, hc]

theorem c2_witness :
    VectorStoreService.searchSimilar zeroSim sampleVectorState "q" 2 =
      Except.ok [⟨"alpha", ⟨"a.txt", 0, 2⟩⟩, ⟨"beta", ⟨"a.txt", 1, 2⟩⟩] ∧
    ([⟨"alpha", ⟨"a.txt", 0, 2⟩⟩, ⟨"beta", ⟨"a.txt", 1, 2⟩⟩] : List DocumentChunk).length ≤ 2 :=
  ⟨rfl, c2_retrieval_bounded.1 zeroSim sampleVectorState "q" 2 _ rfl⟩

/-! ## Claim C4 -/

/-- Claim C4: when a chat turn's completion call throws, the handler catches
the error, the user message appended before the call remains, and a fallback
assistant message is appended; `handleSend` is total, so the error does not
escape the handler. -/
theorem c4_error_fallback (st : ChatState) (respond : String → Except Unit String)
    (uid1 uid2 : String) (t1 t2 : Nat)
    (hin : trimStr st.input ≠ "") (hload : st.isLoading = false)
    (herr : respond (trimStr st.input) = Except.error ()) :
    (handleSend st respond uid1 uid2 t1 t2).messages =
      st.messages ++ [⟨uid1, Role.user, trimStr st.input, t1⟩,
        ⟨uid2, Role.assistant, errorFallback, t2⟩] := by
  simp [handleSend, hin, hload, herr]

theorem c4_witness :
    trimStr "hi" ≠ "" ∧
    (handleSend ⟨[], "hi", false⟩ (fun _ => Except.error ()) "u" "a" 0 1).messages =
      [⟨"u", Role.user, "hi", 0⟩, ⟨"a", Role.assistant, errorFallback, 1⟩] :=
  ⟨by decide,
   c4_error_fallback ⟨[], "hi", false⟩ (fun _ => Except.error ()) "u" "a" 0 1
     (by decide) rfl rfl⟩

/-! ## Claim C6 -/

/-- Claim C6: the message list is append-only: every run of `handleSend` (the
only operation of the chat interface that touches the list) leaves the
existing messages unchanged and appends zero or more messages, each carrying
role user or assistant, a content string and a timestamp. -/
theorem c6_append_only (st : ChatState) (respond : String → Except Unit String)
    (uid1 uid2 : String) (t1 t2 : Nat) :
    ∃ tail, (handleSend st respond uid1 uid2 t1 t2).messages = st.messages ++ tail ∧
      ∀ m ∈ tail, m.role = Role.user ∨ m.role = Role.assistant := by
  unfold handleSend
  by_cases hg : trimStr st.input = "" ∨ st.isLoading = true
  · rw [if_pos hg]
    exact ⟨[], by simp, by simp⟩
  · rw [if_neg hg]
    cases hre : respond (trimStr st.input) with
    | ok r =>
        refine ⟨[⟨uid1, Role.user, trimStr st.input, t1⟩, ⟨uid2, Role.assistant, r, t2⟩], by simp, ?_⟩
        intro m hm
        rcases List.mem_cons.mp hm with rfl | hm'
        · exact Or.inl rfl
        · rcases List.mem_singleton.mp hm' with rfl
          exact Or.inr rfl
    | error e =>
        refine ⟨[⟨uid1, Role.user, trimStr st.input, t1⟩,
          ⟨uid2, Role.assistant, errorFallback, t2⟩], by simp, ?_⟩
        intro m hm
        rcases List.mem_cons.mp hm with rfl | hm'
        · exact Or.inl rfl
        · rcases List.mem_singleton.mp hm' with rfl
          exact Or.inr rfl

theorem c6_witness :
    ∃ tail,
      (handleSend ⟨[⟨"1", Role.assistant, "hello", 0⟩], "hey", false⟩
          (fun _ => Except.ok "reply") "u" "a" 1 2).messages =
        [⟨"1", Role.assistant, "hello", 0⟩] ++ tail ∧
      ∀ m ∈ tail, m.role = Role.user ∨ m.role = Role.assistant :=
  c6_append_only ⟨[⟨"1", Role.assistant, "hello", 0⟩], "hey", false⟩
    (fun _ => Except.ok "reply") "u" "a" 1 2

/-! ## Claim C5 -/

theorem buildContext_ok (st : ServiceState) (sim : Embedding → Embedding → Int)
    (msg : String) : ∃ ctx, OpenAIService.buildContext st sim msg = Except.ok ctx := by
  unfold OpenAIService.buildContext
  by_cases hinit : VectorStoreService.isInitialized st.vectorStore = true
  · obtain ⟨chunks, hc⟩ := searchSimilar_ok_of_initialized sim st.vectorStore msg 6 hinit
    refine ⟨String.intercalate OpenAIService.ctxSep (chunks.map OpenAIService.chunkHeader), ?_⟩
    rw [if_pos hinit, hc]
  · refine ⟨String.intercalate OpenAIService.ctxSep (st.fileContents.map OpenAIService.fileHeader), ?_⟩
    rw [if_neg hinit]

/-- Claim C5: whenever `sendMessage` returns a response, the single
completion request it issued consists of exactly one system message (the
system instructions plus the retrieved context) followed by one user
message, with the fixed model, `max_tokens 800` and temperature 0.7, and the
returned value is the single text of the completion (or the fixed fallback
text when the completion has no content). -/
theorem c5_single_request (st : ServiceState) (sim : Embedding → Embedding → Int)
    (complete : ChatRequest → Except Unit (Option String)) (msg : String)
    (req : ChatRequest) (s : String)
    (h : OpenAIService.sendMessage st sim complete msg = Except.ok (req, s)) :
    ∃ ctx r, OpenAIService.buildContext st sim msg = Except.ok ctx ∧
      req = OpenAIService.mkRequest st.systemInstructions ctx msg ∧
      req.messages = [(Role.system, OpenAIService.mkSystemPrompt st.systemInstructions ctx),
        (Role.user, msg)] ∧
      req.model = OpenAIService.modelName ∧ req.maxTokens = 800 ∧ req.temperatureTenths = 7 ∧
      complete req = Except.ok r ∧ s = r.getD OpenAIService.fallbackResponse := by
  unfold OpenAIService.sendMessage at h
  split at h
  · simp at h
  · split at h
    · simp at h
    · split at h
      · simp at h
      · rename_i ctx hctx
        split at h
        · rename_i r hcomp
          simp only [Except.ok.injEq, Prod.mk.injEq] at h
          obtain ⟨h1, h2⟩ := h
          refine ⟨ctx, r, hctx, h1.symm, ?_, ?_, ?_, ?_, ?_, h2.symm⟩ <;>
            rw [← h1] <;> first | rfl | exact hcomp
        · simp at h

theorem c5_witness :
    ∃ ctx r, OpenAIService.buildContext sampleService zeroSim "q" = Except.ok ctx ∧
      OpenAIService.mkRequest "inst" sampleCtx "q" =
        OpenAIService.mkRequest sampleService.systemInstructions ctx "q" ∧
      (OpenAIService.mkRequest "inst" sampleCtx "q").messages =
        [(Role.system, OpenAIService.mkSystemPrompt sampleService.systemInstructions ctx),
          (Role.user, "q")] ∧
      (OpenAIService.mkRequest "inst" sampleCtx "q").model = OpenAIService.modelName ∧
      (OpenAIService.mkRequest "inst" sampleCtx "q").maxTokens = 800 ∧
      (OpenAIService.mkRequest "inst" sampleCtx "q").temperatureTenths = 7 ∧
      okComplete (OpenAIService.mkRequest "inst" sampleCtx "q") = Except.ok r ∧
      "hi" = r.getD OpenAIService.fallbackResponse :=
  c5_single_request sampleService zeroSim okComplete "q"
    (OpenAIService.mkRequest "inst" sampleCtx "q") "hi" rfl

/-! ## Claim C8 -/

theorem buildContext_no_error (st : ServiceState) (sim : Embedding → Embedding → Int)
    (msg : String) (e : SendError) :
    OpenAIService.buildContext st sim msg ≠ Except.error e := by
  obtain ⟨ctx, hctx⟩ := buildContext_ok st sim msg
  rw [hctx]
  simp

/-- Claim C8: `sendMessage` throws the client-not-initialized error exactly
when no client is set, throws the no-files error exactly when a client is
set but the stored file-content list is empty, and otherwise proceeds to the
request; `isReady` returns true exactly when a client is set and at least
one file content is stored. -/
theorem c8_readiness (st : ServiceState) (sim : Embedding → Embedding → Int)
    (complete : ChatRequest → Except Unit (Option String)) (msg : String) :
    (OpenAIService.sendMessage st sim complete msg = Except.error SendError.notInitialized ↔
      st.client = none) ∧
    (OpenAIService.sendMessage st sim complete msg = Except.error SendError.noFiles ↔
      st.client ≠ none ∧ st.fileContents = []) ∧
    (OpenAIService.isReady st = true ↔ st.client ≠ none ∧ st.fileContents ≠ []) := by
  obtain ⟨cl, fc, si, vst⟩ := st
  cases cl with
  | none =>
      simp [OpenAIService.sendMessage, OpenAIService.isReady]
  | some u =>
      cases fc with
      | nil =>
          simp [OpenAIService.sendMessage, OpenAIService.isReady]
      | cons p ps =>
          obtain ⟨ctx, hb⟩ := buildContext_ok ⟨some u, p :: ps, si, vst⟩ sim msg
          simp only [OpenAIService.sendMessage, OpenAIService.isReady, List.isEmpty_cons,
            Bool.false_eq_true, if_false, hb]
          cases hcomp : complete (OpenAIService.mkRequest si ctx msg) with
          | ok r => simp
          | error e => simp

theorem c8_witness :
    OpenAIService.sendMessage ⟨none, [], "", ⟨none, none⟩⟩ zeroSim okComplete "m" =
      Except.error SendError.notInitialized :=
  (c8_readiness ⟨none, [], "", ⟨none, none⟩⟩ zeroSim okComplete "m").1.mpr rfl

/-! ## Claim C9 -/

theorem chunkDocsAux_mem (name : String) (total : Nat) :
    ∀ (cs : List String) (i : Nat), ∀ d ∈ chunkDocsAux name total i cs,
      d.metadata.fileName = name ∧ d.metadata.totalChunks = total ∧
      i ≤ d.metadata.chunkIndex ∧ d.metadata.chunkIndex < i + cs.length := by
  intro cs
  induction cs with
  | nil => intro i d hd; simp [chunkDocsAux] at hd
  | cons c cs ih =>
      intro i d hd
      rw [chunkDocsAux] at hd
      rcases List.mem_cons.mp hd with rfl | hd'
      · exact ⟨rfl, rfl, Nat.le_refl i, by simp⟩
      · obtain ⟨h1, h2, h3, h4⟩ := ih (i + 1) d hd'
        refine ⟨h1, h2, by omega, ?_⟩
        simp only [List.length_cons]
        omega

theorem chunkDocs_mem (name content : String) :
    ∀ d ∈ chunkDocs name content,
      d.metadata.fileName = name ∧ d.metadata.totalChunks = (splitText content).length ∧
      d.metadata.chunkIndex < (splitText content).length := by
  intro d hd
  obtain ⟨h1, h2, _, h4⟩ := chunkDocsAux_mem name (splitText content).length
    (splitText content) 0 d hd
  exact ⟨h1, h2, by omega⟩

theorem searchSimilar_mem (sim : Embedding → Embedding → Int) (vst : VectorStoreState)
    (q : String) (k : Nat) (res : List DocumentChunk) (store : MemoryVectorStore)
    (hs : vst.vectorStore = some store)
    (h : VectorStoreService.searchSimilar sim vst q k = Except.ok res) :
    ∀ c ∈ res, ∃ mv ∈ store.memoryVectors,
      c.content = mv.doc.pageContent ∧ c.metadata = mv.doc.metadata := by
  unfold VectorStoreService.searchSimilar at h
  rw [hs] at h
  cases he : vst.embeddings with
  | none => rw [he] at h; simp at h
  | some emb =>
      rw [he] at h
      simp only [Except.ok.injEq] at h
      subst h
      intro c hc
      obtain ⟨p, hp, rfl⟩ := List.mem_map.mp hc
      have hp1 : p ∈ (store.memoryVectors.map fun mv => (mv.doc, sim (emb q) mv.embedding)).insertionSort
          (fun a b => b.2 ≤ a.2) :=
        List.take_subset k _ hp
      have hp2 := (List.mem_insertionSort _).mp hp1
      obtain ⟨mv, hmv, rfl⟩ := List.mem_map.mp hp2
      exact ⟨mv, hmv, rfl, rfl⟩

/-- Claim C9: every chunk stored by `addDocuments` carries metadata with
`chunkIndex < totalChunks`, `totalChunks` equal to the number of chunks of
its source document and `fileName` equal to the source document's name, and
`searchSimilar` returns stored chunks with content and metadata unchanged. -/
theorem c9_metadata (vst : VectorStoreState) (docs : List (String × String))
    (vst' : VectorStoreState)
    (h : VectorStoreService.addDocuments vst docs = Except.ok vst') :
    MetadataInvariant vst docs vst' := by
  refine ⟨?_, ?_, ?_, ?_⟩
  · intro doc hdoc
    obtain ⟨d, _, hmem⟩ := List.mem_flatMap.mp hdoc
    obtain ⟨_, h2, h3⟩ := chunkDocs_mem d.1 d.2 doc hmem
    omega
  · intro name content doc hdoc
    obtain ⟨h1, h2, _⟩ := chunkDocs_mem name content doc hdoc
    exact ⟨h1, h2⟩
  · unfold VectorStoreService.addDocuments at h
    cases hs : vst.vectorStore with
    | none => rw [hs] at h; simp at h
    | some store =>
        cases he : vst.embeddings with
        | none => rw [hs, he] at h; simp at h
        | some emb =>
            rw [hs, he] at h
            simp only [Except.ok.injEq] at h
            exact ⟨store, emb, rfl, rfl, by rw [← h], by rw [← h]⟩
  · intro sim q k res store hstore hsearch
    exact searchSimilar_mem sim vst' q k res store hstore hsearch

theorem c9_witness : MetadataInvariant vstEmpty [("a", "xy")] vstAfter :=
  c9_metadata vstEmpty [("a", "xy")] vstAfter rfl

/-! ## Claim C10 -/

/-- Claim C10: `clearFiles` empties the stored file-content list and leaves
the vector index empty or uninitialized, so afterwards `hasFiles` and
`isReady` are false and every similarity search returns no chunks (or the
not-initialized error when no embeddings client was ever set); the client
and the system instructions are unchanged. -/
theorem c10_clear (st : ServiceState) :
    (OpenAIService.clearFiles st).fileContents = [] ∧
    OpenAIService.hasFiles (OpenAIService.clearFiles st) = false ∧
    OpenAIService.isReady (OpenAIService.clearFiles st) = false ∧
    (OpenAIService.clearFiles st).client = st.client ∧
    (OpenAIService.clearFiles st).systemInstructions = st.systemInstructions ∧
    ((OpenAIService.clearFiles st).vectorStore.vectorStore = none ∨
      (OpenAIService.clearFiles st).vectorStore.vectorStore = some ⟨[]⟩) ∧
    (∀ sim q k,
      VectorStoreService.searchSimilar sim (OpenAIService.clearFiles st).vectorStore q k =
        Except.ok [] ∨
      VectorStoreService.searchSimilar sim (OpenAIService.clearFiles st).vectorStore q k =
        Except.error "Vector store not initialized") := by
  refine ⟨rfl, rfl, ?_, rfl, rfl, ?_, ?_⟩
  · simp [OpenAIService.isReady, OpenAIService.clearFiles]
  · cases he : st.vectorStore.embeddings with
    | none => exact Or.inl (by simp [OpenAIService.clearFiles, VectorStoreService.clear, he])
    | some emb => exact Or.inr (by simp [OpenAIService.clearFiles, VectorStoreService.clear, he])
  · intro sim q k
    cases he : st.vectorStore.embeddings with
    | none =>
        refine Or.inr ?_
        simp [OpenAIService.clearFiles, VectorStoreService.clear, he,
          VectorStoreService.searchSimilar]
    | some emb =>
        refine Or.inl ?_
        simp [OpenAIService.clearFiles, VectorStoreService.clear, he,
          VectorStoreService.searchSimilar, VectorStoreService.similaritySearchVectorWithScore,
          List.insertionSort]

theorem c10_witness : (OpenAIService.clearFiles sampleService).fileContents = [] ∧
    OpenAIService.hasFiles (OpenAIService.clearFiles sampleService) = false :=
  ⟨(c10_clear sampleService).1, (c10_clear sampleService).2.1⟩

end DocChat
